import Mathlib

/-!
# DISBi client scripts: `data.js` and `filter.js`

A shallow embedding of the two scripts under `disbi/static/disbi/js/`.

JavaScript strings are lists of characters (`Str`).  The page is explicit state:
every jQuery call of the scripts becomes a function on the part of the page it
reads or writes.  Markup that the scripts build by string concatenation stays a
string, and the browser's reading of it is a separate function.
-/

set_option autoImplicit false

namespace Disbi

/-- A JavaScript string. -/
abbrev Str := List Char

/-! ## Regular expressions used by the scripts -/

/-- The class `\d` of a JavaScript regular expression: the ten ASCII digits. -/
def isDigit (c : Char) : Bool := 0x30 ≤ c.toNat && c.toNat ≤ 0x39

/-- The class `\s` of a JavaScript regular expression: white space and line
terminators. -/
def isSpace (c : Char) : Bool :=
  let n := c.toNat
  n == 0x09 || n == 0x0A || n == 0x0B || n == 0x0C || n == 0x0D || n == 0x20 ||
  n == 0xA0 || n == 0x1680 || (0x2000 ≤ n && n ≤ 0x200A) || n == 0x2028 ||
  n == 0x2029 || n == 0x202F || n == 0x205F || n == 0x3000 || n == 0xFEFF

/-- The pattern `/_\d+/` (`idxPattern` in `makeFooter`) tried at the start of `s`:
the matched text, if any.  `\d+` is greedy. -/
def idxPatternAt : Str → Option Str
  | '_' :: rest =>
    let digits := rest.takeWhile isDigit
    if digits.isEmpty then none else some ('_' :: digits)
  | _ => none

/-- The call `title.match(idxPattern)`: the leftmost match of `/_\d+/` in `s`,
or `none` for JavaScript's `null`. -/
def idxPatternMatch : Str → Option Str
  | [] => none
  | c :: cs =>
    match idxPatternAt (c :: cs) with
    | some m => some m
    | none => idxPatternMatch cs

/-! ## `filter.js`: `gridify` -/

/-- The loop state of `gridify`: the running column total, the row being
filled, and the rows already wrapped in a grid container. -/
structure GridState (α : Type) where
  colsCount : Nat
  row : List α
  wrapped : List (List α)

/-- The call `row.wrapAll(...)`: jQuery wraps nothing when the set is empty. -/
def wrapAll {α : Type} (row : List α) (wrapped : List (List α)) : List (List α) :=
  if row.isEmpty then wrapped else wrapped ++ [row]

/-- One turn of the `each` loop of `gridify` for a sub-form of span `cols x`. -/
def gridStep {α : Type} (cols : α → Nat) (st : GridState α) (x : α) : GridState α :=
  let colsCount := st.colsCount + cols x
  let st1 : GridState α :=
    if colsCount > 12 then
      { colsCount := cols x, row := [], wrapped := wrapAll st.row st.wrapped }
    else
      { st with colsCount := colsCount }
  { st1 with row := st1.row ++ [x] }

/-- The loop of `gridify` over the sub-forms in document order. -/
def gridLoop {α : Type} (cols : α → Nat) (subs : List α) : GridState α :=
  subs.foldl (gridStep cols) { colsCount := 0, row := [], wrapped := [] }

/-- The rows that `gridify` wraps, in document order; `cols x` is the span
`Math.ceil((outerWidth + delBtnSize) / twelfth)` computed for sub-form `x`. -/
def gridify {α : Type} (cols : α → Nat) (subs : List α) : List (List α) :=
  let st := gridLoop cols subs
  wrapAll st.row st.wrapped

/-- The class `col-N-12` that `gridify` adds to each sub-form. -/
def gridClasses {α : Type} (cols : α → Nat) (subs : List α) : List (α × Nat) :=
  subs.map fun x => (x, cols x)

/-! ## Element content -/

/-- What an element holds: text put there by `.text(s)` (or nothing, after
`.empty()`), or markup put there by `.html(markup)`. -/
inductive Content where
  | text (s : Str)
  | html (markup : Str)
  deriving DecidableEq, Repr

/-- The text of markup made of text and tags only: tags are dropped. -/
def stripTags : Bool → Str → Str
  | _, [] => []
  | false, c :: cs => if c = '<' then stripTags true cs else c :: stripTags false cs
  | true, c :: cs => if c = '>' then stripTags false cs else stripTags true cs

/-- The getter `.text()` of an element. -/
def Content.getText : Content → Str
  | .text s => s
  | .html markup => stripTags false markup

/-- A number turned into a string by `+`, for a non-negative integer below
`2^53`: a double holds such an integer exactly and JavaScript writes it in
decimal digits.  Beyond that bound a double rounds, and from `10^21` on it is
written with an exponent; this definition does not describe those. -/
def numberToString (n : Nat) : Str := (Nat.repr n).toList

/-! ## `filter.js`: `showExperimentInfo` -/

/-- After how many experiments a warning is displayed. -/
def tooMuchExps : Nat := 20

/-- The answer of `exp_info/`. -/
structure ExpResponse where
  numExps : Nat
  tableExps : Str
  deriving DecidableEq, Repr

/-- The elements of the filter page that `showExperimentInfo` touches:
`#num_exps_info`, `#submit_button` and `#available-exps`. -/
structure FilterPage where
  numExpsInfo : Content
  submitButtonShown : Bool
  availableExps : Content
  availableExpsShown : Bool
  deriving DecidableEq, Repr

/-- The markup of the warning for too many experiments. -/
def warningSpan : Str := "<span class=\"warning\"> This might take some time.</span>".toList

/-- The `success` callback of `showExperimentInfo`. -/
def showExperimentInfo.success (response : ExpResponse) (page : FilterPage) : FilterPage :=
  let page1 : FilterPage :=
    if response.numExps = 1 then
      { page with numExpsInfo := .text (numberToString response.numExps ++
          " experiment meets your requested conditions.".toList) }
    else
      { page with numExpsInfo := .text (numberToString response.numExps ++
          " experiments meet your requested conditions.".toList) }
  if response.numExps > 0 then
    let page2 : FilterPage :=
      if response.numExps ≥ tooMuchExps then
        let text := page1.numExpsInfo.getText
        { page1 with numExpsInfo := .html (text ++ warningSpan) }
      else page1
    { page2 with
      submitButtonShown := true
      availableExps := .html response.tableExps
      availableExpsShown := true }
  else
    { page1 with submitButtonShown := false, availableExpsShown := false }

/-- The request of `showExperimentInfo` once answered: `none` is a transport
failure, which only logs to the console. -/
def showExperimentInfo (reply : Option ExpResponse) (page : FilterPage) : FilterPage :=
  match reply with
  | some response => showExperimentInfo.success response page
  | none => page

/-! ## `data.js`: `embedSVG` -/

/-- The separator `/\s+|,/` tried at the start of `s`: how many characters it
matches.  The first alternative is a greedy run of white space. -/
def separatorAt (s : Str) : Option Nat :=
  let run := (s.takeWhile isSpace).length
  if run > 0 then some run
  else match s with
    | ',' :: _ => some 1
    | _ => none

/-- The loop of `String.prototype.split` for the separator `/\s+|,/`: `cur` is
the piece being read, in reverse. -/
def splitLoop : Nat → Str → Str → List Str
  | 0, cur, _ => [cur.reverse]
  | _ + 1, cur, [] => [cur.reverse]
  | fuel + 1, cur, c :: cs =>
    match separatorAt (c :: cs) with
    | some n => cur.reverse :: splitLoop fuel [] ((c :: cs).drop n)
    | none => splitLoop fuel (c :: cur) cs

/-- The call `.split(/\s+|,/)`. -/
def splitViewBox (s : Str) : List Str := splitLoop s.length [] s

/-- An `svg` element: its `viewBox`, `width` and `height` attributes. -/
structure Svg where
  viewBox : Option Str
  width : Option Str
  height : Option Str
  deriving DecidableEq, Repr

/-- The answer of a plot endpoint.  The markup fragment `data` is kept as the
`svg` elements it holds, in document order. -/
structure PlotResponse where
  status : Bool
  data : List Svg
  err_msg : Str
  deriving DecidableEq, Repr

/-- How a plot request ends: a response, or a transport failure with the
response body. -/
inductive Reply where
  | success (response : PlotResponse)
  | error (responseText : Str)
  deriving DecidableEq, Repr

/-- What a plot request sends: the column of a plot button (the anti-forgery
token of the page goes along) or a serialised form. -/
inductive PlotData where
  | column (title : Str)
  | form (serialised : Str)
  deriving DecidableEq, Repr

/-- The argument of `embedSVG`. -/
structure EmbedParams where
  url : Str
  data : PlotData
  containerId : Str
  deriving DecidableEq, Repr

/-- The part of the data page that `embedSVG` touches.  `warning` and
`loadingShown` are looked up by selector.  `plots` are the children of
`#plot-container`, each kept as the `svg` elements inside it; `svgsBefore` and
`svgsAfter` are the `svg` elements of the document before and after that
container. -/
structure PlotPage where
  warning : Str → Content
  loadingShown : Str → Bool
  svgsBefore : List Svg
  plots : List (List Svg)
  svgsAfter : List Svg

/-- The set `$( "svg" )`: every `svg` element of the document, in document order. -/
def PlotPage.svgs (page : PlotPage) : List Svg :=
  page.svgsBefore ++ page.plots.flatten ++ page.svgsAfter

/-- The calls `.attr( "height", h ).attr( "width", w )` on one element: an
undefined value sets nothing and keeps the chain. -/
def Svg.resize (h w : Option Str) (svg : Svg) : Svg :=
  let svg1 : Svg := match h with
    | some value => { svg with height := some value }
    | none => svg
  match w with
  | some value => { svg1 with width := some value }
  | none => svg1

/-- The calls `$( "svg" ).attr( "height", h ).attr( "width", w )`. -/
def PlotPage.resizeSvgs (h w : Option Str) (page : PlotPage) : PlotPage :=
  { page with
    svgsBefore := page.svgsBefore.map (Svg.resize h w)
    plots := page.plots.map (List.map (Svg.resize h w))
    svgsAfter := page.svgsAfter.map (Svg.resize h w) }

/-- How a callback ends: normally, or by a `TypeError` that leaves the page as
it was at that point. -/
inductive Outcome where
  | done (page : PlotPage)
  | threw (page : PlotPage)

/-- The page an outcome leaves. -/
def Outcome.page : Outcome → PlotPage
  | .done page => page
  | .threw page => page

/-- The `beforeSend` callback of `embedSVG`. -/
def embedSVG.beforeSend (params : EmbedParams) (page : PlotPage) : PlotPage :=
  { page with
    warning := Function.update page.warning (params.containerId ++ "--warning".toList) (.text [])
    loadingShown := Function.update page.loadingShown (params.containerId ++ "--loading".toList) true }

/-- The `success` callback of `embedSVG`.  It throws when the document has no
`svg` element and when the last one has no `viewBox`; a `viewBox` of fewer
than four pieces leaves `viewBox[3]`, or `viewBox[2]` too, undefined.  The
click listeners on the plot containers and the scrolling of the page change
nothing that `PlotPage` keeps. -/
def embedSVG.success (params : EmbedParams) (response : PlotResponse) (page : PlotPage) :
    Outcome :=
  if response.status then
    let page1 : PlotPage := { page with plots := page.plots ++ [response.data] }
    match page1.svgs.getLast? with
    | none => .threw page1
    | some lastSVG =>
      match lastSVG.viewBox with
      | none => .threw page1
      | some attr =>
        let viewBox := splitViewBox attr
        let plotContainerWidth := viewBox.get? 2
        let plotContainerHeight := viewBox.get? 3
        .done (page1.resizeSvgs plotContainerHeight plotContainerWidth)
  else
    .done { page with
      warning := Function.update page.warning (params.containerId ++ "--warning".toList)
        (.text response.err_msg) }

/-- The `error` callback of `embedSVG`. -/
def embedSVG.error (params : EmbedParams) (responseText : Str) (page : PlotPage) : PlotPage :=
  { page with
    warning := Function.update page.warning (params.containerId ++ "--warning".toList)
      (.text responseText) }

/-- The `complete` callback of `embedSVG`. -/
def embedSVG.complete (params : EmbedParams) (page : PlotPage) : PlotPage :=
  { page with
    loadingShown := Function.update page.loadingShown (params.containerId ++ "--loading".toList)
      false }

/-- The request of `embedSVG` once answered: `beforeSend`, then `success` or
`error`, then `complete` unless the callback threw. -/
def embedSVG (params : EmbedParams) (reply : Reply) (page : PlotPage) : Outcome :=
  let page0 := embedSVG.beforeSend params page
  match reply with
  | .success response =>
    match embedSVG.success params response page0 with
    | .done page1 => .done (embedSVG.complete params page1)
    | .threw page1 => .threw page1
  | .error responseText =>
    .done (embedSVG.complete params (embedSVG.error params responseText page0))

/-! ## `data.js`: the footer of the result table -/

/-- A footer cell after `makeFooter` has filled it: its markup is
`searchbox ++ plotBtn`, and `onClick` is the listener put on its button. -/
structure FooterCell where
  searchbox : Str
  plotBtn : Str
  onClick : Option EmbedParams
  deriving DecidableEq, Repr

/-- The markup of the search box for a column title. -/
def searchboxMarkup (title : Str) : Str :=
  "<input type=\"text\" placeholder=\"Search ".toList ++ title ++ "\" />".toList

/-- The markup of the plot button for a column title. -/
def plotButtonMarkup (title : Str) : Str :=
  "<button type=\"button\" class=\"action-button\">plot ".toList ++ title ++ "</button>".toList

/-- The body of the `each` callback of `makeFooter` for a footer cell whose
header cell has the text `title`. -/
def footerCell (title : Str) : FooterCell :=
  let searchbox := searchboxMarkup title
  let plotBtn : Str :=
    if (idxPatternMatch title).isSome then plotButtonMarkup title else []
  { searchbox := searchbox
    plotBtn := plotBtn
    onClick :=
      if plotBtn ≠ [] then
        some { url := "get_distribution_plot/".toList, data := .column title,
               containerId := "#plot-distribution".toList }
      else none }

/-- A column name ends with an underscore followed by one or more digits. -/
def endsWithIndex (name : Str) : Bool :=
  let digits := name.reverse.takeWhile isDigit
  !digits.isEmpty && (name.reverse.drop digits.length).head? == some '_'

/-- A column name holds an underscore directly followed by a digit. -/
def holdsIndex (name : Str) : Prop :=
  ∃ pre d post, name = pre ++ '_' :: d :: post ∧ isDigit d = true

/-! ## `data.js`: the result table -/

/-- A table payload: the column names and the rows. -/
structure Payload where
  columns : List Str
  tableData : List (List Str)
  deriving DecidableEq, Repr

/-- Characters that stay inside a cell: the HTML tokenizer opens a tag at `<`
only. -/
def plainChar (c : Char) : Bool := c != '<'

/-- The string `s` without the leading `lit`, when it starts with `lit`. -/
def dropLiteral : Str → Str → Option Str
  | [], s => some s
  | _ :: _, [] => none
  | l :: lit, c :: s => if l = c then dropLiteral lit s else none

/-- The loop of `parseCells`. -/
def parseCellsLoop : Nat → Str → Option (List Str)
  | 0, _ => none
  | fuel + 1, s =>
    if s.isEmpty then some []
    else
      match dropLiteral "<td>".toList s with
      | none => none
      | some rest =>
        match dropLiteral "</td>".toList (rest.dropWhile plainChar) with
        | none => none
        | some rest1 => (parseCellsLoop fuel rest1).map (rest.takeWhile plainChar :: ·)

/-- The browser's reading of a run of `<td>...</td>` cells without tags inside:
what is written in each cell, in order.  `none` stands for markup outside this
fragment of HTML, about which the model says nothing. -/
def parseCells (markup : Str) : Option (List Str) :=
  parseCellsLoop (markup.length + 1) markup

/-- The `#result_table` element: what is written in each `thead td`, and the
cells of the footer row. -/
structure TableDom where
  thead : List Str
  tfoot : List FooterCell
  deriving DecidableEq, Repr

/-- The function `makeFooter`: append `<tfoot>` with the markup `tableHeaders`
and fill each of its cells from the header cell of the same index.  `text` is
the getter `.text()` on a header cell, given what is written in the cell: the
browser resolves character references there; the text of a missing header
cell is empty. -/
def makeFooter (text : Str → Str) (table : TableDom) (tableHeaders : Str) :
    Option TableDom :=
  (parseCells tableHeaders).map fun cells =>
    { table with
      tfoot := (List.range cells.length).map fun index =>
        let title : Str :=
          match table.thead.get? index with
          | some written => text written
          | none => []
        footerCell title }

/-- A column of the table widget: its search text and whether it is shown. -/
structure Column where
  search : Str
  visible : Bool
  deriving DecidableEq, Repr

/-- The table widget: the rows it was given, its columns in their current
order (`colReorder` lets the user move them), and how often `draw()` ran. -/
structure DataTable where
  data : List (List Str)
  columns : List Column
  draws : Nat
  deriving DecidableEq, Repr

/-- The function `initTable`: the widget over `tableData`, one column for each
header cell, nothing searched yet.  The option `order: [[ 0, "desc" ]]` names
the first column, so the call throws a `TypeError` (`none`) for a table
without columns.  The options for paging, scrolling and the export buttons
change nothing that `DataTable` keeps. -/
def initTable (table : TableDom) (tableData : List (List Str)) : Option DataTable :=
  if table.thead.isEmpty then none
  else
    some { data := tableData
           columns := table.thead.map fun _ => { search := [], visible := true }
           draws := 0 }

/-- A key-up or change event on a footer search input: `that` is the column
index the handler captured when `addSearch` installed it, `cellIndex` is
`$(this).parent().index()`, and `value` is `this.value`. -/
structure SearchEvent where
  that : Nat
  cellIndex : Nat
  value : Str
  deriving DecidableEq, Repr

/-- The indices of the visible columns, in order. -/
def visibleIndices (columns : List Column) : List Nat :=
  (List.range columns.length).filter fun i =>
    (columns.get? i).map (·.visible) == some true

/-- The column selector `n + ":visible"`. -/
def visibleColumn (table : DataTable) (n : Nat) : Option Nat :=
  (visibleIndices table.columns).get? n

/-- The call `.search( value )` on the column of index `j`. -/
def setSearch : List Column → Nat → Str → List Column
  | [], _, _ => []
  | col :: rest, 0, value => { col with search := value } :: rest
  | col :: rest, j + 1, value => col :: setSearch rest j value

/-- The handler that `addSearch` installs on a footer search input. -/
def searchHandler (ev : SearchEvent) (table : DataTable) : DataTable :=
  if (table.columns.get? ev.that).map (·.search) ≠ some ev.value then
    let columns :=
      match visibleColumn table ev.cellIndex with
      | some j => setSearch table.columns j ev.value
      | none => table.columns
    { table with columns := columns, draws := table.draws + 1 }
  else table

/-- The function `addSearch`: one handler for each column, holding that
column's index. -/
def addSearch (table : DataTable) : List Nat :=
  List.range table.columns.length

/-- What `renderDataTable` leaves in `#result-container` when it runs to its
end. -/
structure Rendered where
  dom : TableDom
  table : DataTable
  handlers : List Nat
  deriving DecidableEq, Repr

/-- How `renderDataTable` ends: with the table and its widget; by the
`TypeError` of `initTable`, which leaves the table without widget and without
search handlers; or on markup that `parseCells` does not read. -/
inductive RenderResult where
  | rendered (result : Rendered)
  | threw (dom : TableDom)
  | unread
  deriving DecidableEq, Repr

/-- The markup `tableHeaders` that `renderDataTable` builds. -/
def tableHeaders (columns : List Str) : Str :=
  columns.foldl (fun acc val => acc ++ "<td>".toList ++ val ++ "</td>".toList) []

/-- The function `renderDataTable`; `text` is the getter `.text()` that
`makeFooter` calls on the header cells. -/
def renderDataTable (text : Str → Str) (data : Payload) : RenderResult :=
  let headers := tableHeaders data.columns
  match parseCells headers with
  | none => .unread
  | some cells =>
    match makeFooter text { thead := cells, tfoot := [] } headers with
    | none => .unread
    | some dom =>
      match initTable dom data.tableData with
      | none => .threw dom
      | some table => .rendered { dom := dom, table := table, handlers := addSearch table }

/-! ## Notions used to state the properties -/

/-- The message of the status line, before any warning is added. -/
def statusMessage (numExps : Nat) : Str :=
  if numExps = 1 then "1 experiment meets your requested conditions.".toList
  else numberToString numExps ++ " experiments meet your requested conditions.".toList

/-- A character of a numeric token: a digit, a sign, the point or an exponent mark. -/
def numericChar (c : Char) : Bool :=
  isDigit c || c == '.' || c == '-' || c == '+' || c == 'e' || c == 'E'

/-- A numeric token of a bounding box: one or more numeric characters. -/
def numericToken (t : Str) : Bool := !t.isEmpty && t.all numericChar

/-- What stands between two tokens: one comma, or a run of white space. -/
def separator (s : Str) : Bool := s == [','] || (!s.isEmpty && s.all isSpace)

/-- The markup of one header cell. -/
def cellMarkup (val : Str) : Str := "<td>".toList ++ val ++ "</td>".toList

/-- A column name without the character `<`. -/
def plainName (name : Str) : Bool := name.all plainChar

/-- The number that a string of decimal digits writes. -/
def decimalValue (digits : Str) : Nat :=
  digits.foldl (fun value c => 10 * value + (c.toNat - 0x30)) 0

/-- The decimal writing of a number: one or more digits, no leading zero
except for the number zero itself. -/
def writesDecimal (digits : Str) (n : Nat) : Prop :=
  digits ≠ [] ∧ (∀ c ∈ digits, isDigit c = true) ∧
  (digits = ['0'] ∨ digits.head? ≠ some '0') ∧ decimalValue digits = n

/-- What holds of the loop state of `gridify` after the sub-forms `subs`. -/
structure GridInv {α : Type} (cols : α → Nat) (subs : List α) (st : GridState α) : Prop where
  cover : st.wrapped.flatten ++ st.row = subs
  total : st.colsCount = (st.row.map cols).sum
  wrapped_ne : ∀ r ∈ st.wrapped, r ≠ []
  row_ne : subs ≠ [] → st.row ≠ []

/-- The totals that the loop of `gridify` keeps when no span exceeds 12. -/
structure GridBound {α : Type} (cols : α → Nat) (st : GridState α) : Prop where
  count_le : st.colsCount ≤ 12
  wrapped_le : ∀ r ∈ st.wrapped, (r.map cols).sum ≤ 12

/-! ## Sample pages and tables -/

/-- A page with nothing in it. -/
def blankPage : PlotPage :=
  { warning := fun _ => .text [], loadingShown := fun _ => false,
    svgsBefore := [], plots := [], svgsAfter := [] }

/-- The request behind the button `#plot-compare--confirm`, with an empty form. -/
def comparePlot : EmbedParams :=
  { url := "get_compare_plot/".toList, data := .form [], containerId := "#plot-compare".toList }

/-- An image that declares the bounding box `0 0 400 300` and no size. -/
def boxImage : Svg :=
  { viewBox := some "0 0 400 300".toList, width := none, height := none }

/-- A filter page that shows nothing yet. -/
def blankFilterPage : FilterPage :=
  { numExpsInfo := .text [], submitButtonShown := false, availableExps := .text [],
    availableExpsShown := false }

/-- A table widget of two visible columns without search text. -/
def twoColumns : DataTable :=
  { data := []
    columns := [{ search := [], visible := true }, { search := [], visible := true }]
    draws := 0 }

/-! ## The plot button of `makeFooter` -/

theorem idxPatternAt_isSome (s : Str) :
    (idxPatternAt s).isSome = true ↔ ∃ d post, s = '_' :: d :: post ∧ isDigit d = true := by
  constructor
  · intro h
    unfold idxPatternAt at h
    split at h
    · rename_i rest
      cases rest with
      | nil => simp at h
      | cons d post =>
        refine ⟨d, post, rfl, ?_⟩
        by_cases hd : isDigit d = true
        · exact hd
        · simp [List.takeWhile, hd] at h
    · simp at h
  · rintro ⟨d, post, rfl, hd⟩
    simp [idxPatternAt, List.takeWhile, hd]

theorem idxPatternMatch_isSome (s : Str) :
    (idxPatternMatch s).isSome = true ↔ holdsIndex s := by
  induction s with
  | nil =>
    simp [idxPatternMatch, holdsIndex]
  | cons c cs ih =>
    cases hat : idxPatternAt (c :: cs) with
    | some m =>
      have h1 : (idxPatternMatch (c :: cs)).isSome = true := by simp [idxPatternMatch, hat]
      obtain ⟨d, post, hs, hd⟩ := (idxPatternAt_isSome (c :: cs)).1 (by simp [hat])
      exact ⟨fun _ => ⟨[], d, post, by simpa using hs, hd⟩, fun _ => h1⟩
    | none =>
      have h1 : idxPatternMatch (c :: cs) = idxPatternMatch cs := by simp [idxPatternMatch, hat]
      rw [h1, ih]
      constructor
      · rintro ⟨pre, d, post, rfl, hd⟩
        exact ⟨c :: pre, d, post, rfl, hd⟩
      · rintro ⟨pre, d, post, hs, hd⟩
        cases pre with
        | nil =>
          have : (idxPatternAt (c :: cs)).isSome = true :=
            (idxPatternAt_isSome (c :: cs)).2 ⟨d, post, by simpa using hs, hd⟩
          simp [hat] at this
        | cons p pre =>
          simp only [List.cons_append, List.cons.injEq] at hs
          exact ⟨pre, d, post, hs.2, hd⟩

theorem plotButtonMarkup_ne_nil (title : Str) : plotButtonMarkup title ≠ [] := by
  simp [plotButtonMarkup]

theorem footerCell_plotBtn (title : Str) :
    (footerCell title).plotBtn =
      if (idxPatternMatch title).isSome then plotButtonMarkup title else [] := rfl

theorem holdsIndex_of_endsWithIndex (name : Str) (h : endsWithIndex name = true) :
    holdsIndex name := by
  simp only [endsWithIndex, Bool.and_eq_true, Bool.not_eq_true', beq_iff_eq] at h
  obtain ⟨hne, hhead⟩ := h
  have hsplit : name.reverse =
      name.reverse.takeWhile isDigit ++ name.reverse.dropWhile isDigit :=
    (List.takeWhile_append_dropWhile _ _).symm
  have hdrop : name.reverse.drop (name.reverse.takeWhile isDigit).length =
      name.reverse.dropWhile isDigit := by
    have h := @List.drop_left _ (name.reverse.takeWhile isDigit) (name.reverse.dropWhile isDigit)
    rw [← hsplit] at h
    exact h
  rw [hdrop] at hhead
  cases hrest : name.reverse.dropWhile isDigit with
  | nil => simp [hrest] at hhead
  | cons u rest =>
    simp [hrest] at hhead
    subst hhead
    cases hdig : (name.reverse.takeWhile isDigit).reverse with
    | nil =>
      rw [List.reverse_eq_nil_iff.mp hdig] at hne
      simp at hne
    | cons d ds =>
      have hd : isDigit d = true := by
        have : d ∈ name.reverse.takeWhile isDigit := by
          rw [← List.mem_reverse, hdig]; simp
        exact List.mem_takeWhile_imp this
      refine ⟨rest.reverse, d, ds, ?_, hd⟩
      have := congrArg List.reverse hsplit
      rw [hrest] at this
      simpa [hdig] using this

/-! ## The rows of `gridify` -/

section Grid

variable {α : Type} (cols : α → Nat)

theorem wrapAll_nil (wrapped : List (List α)) : wrapAll [] wrapped = wrapped := rfl

theorem wrapAll_of_ne {row : List α} (h : row ≠ []) (wrapped : List (List α)) :
    wrapAll row wrapped = wrapped ++ [row] := by
  cases row with
  | nil => exact absurd rfl h
  | cons x xs => rfl

theorem wrapAll_flatten (row : List α) (wrapped : List (List α)) :
    (wrapAll row wrapped).flatten = wrapped.flatten ++ row := by
  cases row with
  | nil => simp [wrapAll]
  | cons x xs => simp [wrapAll]

theorem mem_wrapAll {row r : List α} {wrapped : List (List α)} (h : r ∈ wrapAll row wrapped) :
    r ∈ wrapped ∨ (r = row ∧ row ≠ []) := by
  cases row with
  | nil => exact Or.inl h
  | cons x xs =>
    simp only [wrapAll, List.isEmpty_cons, Bool.false_eq_true, if_false, List.mem_append,
      List.mem_singleton] at h
    rcases h with h | h
    · exact Or.inl h
    · exact Or.inr ⟨h, by simp⟩

theorem gridLoop_nil : gridLoop cols ([] : List α) = { colsCount := 0, row := [], wrapped := [] } :=
  rfl

theorem gridLoop_snoc (pre : List α) (x : α) :
    gridLoop cols (pre ++ [x]) = gridStep cols (gridLoop cols pre) x := by
  simp [gridLoop, List.foldl_append]

theorem gridStep_over (st : GridState α) (x : α) (h : 12 < st.colsCount + cols x) :
    gridStep cols st x =
      { colsCount := cols x, row := [x], wrapped := wrapAll st.row st.wrapped } := by
  simp [gridStep, h]

theorem gridStep_fits (st : GridState α) (x : α) (h : ¬ 12 < st.colsCount + cols x) :
    gridStep cols st x =
      { colsCount := st.colsCount + cols x, row := st.row ++ [x], wrapped := st.wrapped } := by
  simp [gridStep, h]

theorem gridStep_inv (subs : List α) (st : GridState α) (x : α) (h : GridInv cols subs st) :
    GridInv cols (subs ++ [x]) (gridStep cols st x) := by
  by_cases hover : 12 < st.colsCount + cols x
  · rw [gridStep_over cols st x hover]
    refine ⟨?_, by simp, ?_, by simp⟩
    · simp only [wrapAll_flatten, h.cover]
    · intro r hr
      rcases mem_wrapAll hr with hr | ⟨rfl, hne⟩
      · exact h.wrapped_ne r hr
      · exact hne
  · rw [gridStep_fits cols st x hover]
    refine ⟨?_, ?_, h.wrapped_ne, by simp⟩
    · simp only [← List.append_assoc, h.cover]
    · simp [h.total]

theorem gridLoop_inv (subs : List α) : GridInv cols subs (gridLoop cols subs) := by
  induction subs using List.reverseRecOn with
  | nil => exact ⟨rfl, rfl, by simp [gridLoop], by simp⟩
  | append_singleton pre x ih =>
    rw [gridLoop_snoc]
    exact gridStep_inv cols pre _ x ih

theorem gridLoop_wrapped_nil (subs : List α) (h : (gridLoop cols subs).row = []) :
    (gridLoop cols subs).wrapped = [] := by
  have inv := gridLoop_inv cols subs
  have hsubs : subs = [] := by
    by_contra hne
    exact inv.row_ne hne h
  subst hsubs
  rfl

theorem gridify_flatten (subs : List α) : (gridify cols subs).flatten = subs := by
  simp only [gridify, wrapAll_flatten]
  exact (gridLoop_inv cols subs).cover

theorem gridify_ne_nil (subs : List α) : ∀ r ∈ gridify cols subs, r ≠ [] := by
  intro r hr
  rcases mem_wrapAll hr with hr | ⟨heq, hne⟩
  · exact (gridLoop_inv cols subs).wrapped_ne r hr
  · rw [heq]
    exact hne

theorem gridify_getLast (subs : List α) :
    (gridify cols subs).getLast?.getD [] = (gridLoop cols subs).row := by
  by_cases h : (gridLoop cols subs).row = []
  · simp [gridify, h, gridLoop_wrapped_nil cols subs h, wrapAll_nil]
  · simp [gridify, wrapAll_of_ne h]

theorem gridify_dropLast (subs : List α) :
    (gridify cols subs).dropLast = (gridLoop cols subs).wrapped := by
  by_cases h : (gridLoop cols subs).row = []
  · simp [gridify, h, gridLoop_wrapped_nil cols subs h, wrapAll_nil]
  · simp [gridify, wrapAll_of_ne h]

theorem gridify_snoc (pre : List α) (x : α) :
    gridify cols (pre ++ [x]) =
      if 12 < (((gridify cols pre).getLast?.getD []).map cols).sum + cols x then
        gridify cols pre ++ [[x]]
      else
        (gridify cols pre).dropLast ++ [(gridify cols pre).getLast?.getD [] ++ [x]] := by
  rw [gridify_getLast, gridify_dropLast, ← (gridLoop_inv cols pre).total]
  have hstep : gridify cols (pre ++ [x]) =
      wrapAll (gridStep cols (gridLoop cols pre) x).row
        (gridStep cols (gridLoop cols pre) x).wrapped := by
    simp only [gridify, gridLoop_snoc]
  rw [hstep]
  by_cases hover : 12 < (gridLoop cols pre).colsCount + cols x
  · rw [gridStep_over cols _ x hover, if_pos hover]
    simp [gridify, wrapAll_of_ne]
  · rw [gridStep_fits cols _ x hover, if_neg hover]
    simp [wrapAll_of_ne]

theorem gridLoop_bound (subs : List α) (hspan : ∀ x ∈ subs, cols x ≤ 12) :
    GridBound cols (gridLoop cols subs) := by
  induction subs using List.reverseRecOn with
  | nil => exact ⟨by simp [gridLoop], by simp [gridLoop]⟩
  | append_singleton pre x ih =>
    have ihp := ih (fun y hy => hspan y (List.mem_append_left _ hy))
    have hx : cols x ≤ 12 := hspan x (by simp)
    have inv := gridLoop_inv cols pre
    rw [gridLoop_snoc]
    by_cases hover : 12 < (gridLoop cols pre).colsCount + cols x
    · rw [gridStep_over cols _ x hover]
      refine ⟨hx, ?_⟩
      intro r hr
      rcases mem_wrapAll hr with hr | ⟨rfl, _⟩
      · exact ihp.wrapped_le r hr
      · rw [← inv.total]; exact ihp.count_le
    · rw [gridStep_fits cols _ x hover]
      exact ⟨by simpa using Nat.le_of_not_lt hover, ihp.wrapped_le⟩

theorem gridify_sum_le (subs : List α) (hspan : ∀ x ∈ subs, cols x ≤ 12) :
    ∀ r ∈ gridify cols subs, (r.map cols).sum ≤ 12 := by
  intro r hr
  have hb := gridLoop_bound cols subs hspan
  rcases mem_wrapAll hr with hr | ⟨rfl, _⟩
  · exact hb.wrapped_le r hr
  · rw [← (gridLoop_inv cols subs).total]; exact hb.count_le

end Grid

/-! ## The status line of `showExperimentInfo` -/

theorem digitChar_ne_lt (d : Nat) (h : d < 10) : Nat.digitChar d ≠ '<' := by
  interval_cases d <;> decide

theorem toDigitsCore_ne_lt (fuel n : Nat) (acc : List Char) (hacc : ∀ c ∈ acc, c ≠ '<') :
    ∀ c ∈ Nat.toDigitsCore 10 fuel n acc, c ≠ '<' := by
  induction fuel generalizing n acc with
  | zero => simpa [Nat.toDigitsCore] using hacc
  | succ fuel ih =>
    have hacc1 : ∀ c ∈ Nat.digitChar (n % 10) :: acc, c ≠ '<' := by
      intro c hc
      rcases List.mem_cons.1 hc with rfl | hc
      · exact digitChar_ne_lt _ (Nat.mod_lt _ (by decide))
      · exact hacc c hc
    unfold Nat.toDigitsCore
    by_cases hz : n / 10 = 0
    · simpa [hz] using hacc1
    · simpa [hz] using ih (n / 10) _ hacc1

theorem numberToString_ne_lt (n : Nat) : ∀ c ∈ numberToString n, c ≠ '<' := by
  intro c hc
  have hc1 : c ∈ Nat.toDigitsCore 10 (n + 1) n [] := by
    simpa [numberToString, Nat.repr, Nat.toDigits, List.asString] using hc
  exact toDigitsCore_ne_lt (n + 1) n [] (by simp) c hc1

theorem stripTags_append_text (s rest : Str) (h : ∀ c ∈ s, c ≠ '<') :
    stripTags false (s ++ rest) = s ++ stripTags false rest := by
  induction s with
  | nil => rfl
  | cons c cs ih =>
    have hc : c ≠ '<' := h c (by simp)
    have hcs : ∀ d ∈ cs, d ≠ '<' := fun d hd => h d (by simp [hd])
    simp [stripTags, hc, ih hcs]

theorem stripTags_warningSpan :
    stripTags false warningSpan = " This might take some time.".toList := by decide

theorem statusMessage_ne_lt (n : Nat) : ∀ c ∈ statusMessage n, c ≠ '<' := by
  intro c hc
  unfold statusMessage at hc
  split at hc
  · have hconst : ∀ d ∈ "1 experiment meets your requested conditions.".toList, d ≠ '<' := by
      decide
    exact hconst c hc
  · rcases List.mem_append.1 hc with hc | hc
    · exact numberToString_ne_lt n c hc
    · have hconst : ∀ d ∈ " experiments meet your requested conditions.".toList, d ≠ '<' := by
        decide
      exact hconst c hc

theorem digitChar_toNat (d : Nat) (h : d < 10) : (Nat.digitChar d).toNat = 0x30 + d := by
  interval_cases d <;> rfl

theorem isDigit_digitChar (d : Nat) (h : d < 10) : isDigit (Nat.digitChar d) = true := by
  simp only [isDigit, Bool.and_eq_true, decide_eq_true_eq, digitChar_toNat d h]
  omega

theorem toDigitsCore_append (fuel n : Nat) (acc : List Char) :
    Nat.toDigitsCore 10 fuel n acc = Nat.toDigitsCore 10 fuel n [] ++ acc := by
  induction fuel generalizing n acc with
  | zero => simp [Nat.toDigitsCore]
  | succ fuel ih =>
    unfold Nat.toDigitsCore
    by_cases hz : n / 10 = 0
    · simp [hz]
    · simp only [hz, if_false]
      rw [ih (n / 10) (Nat.digitChar (n % 10) :: acc), ih (n / 10) [Nat.digitChar (n % 10)]]
      simp

theorem decimalValue_snoc (digits : Str) (c : Char) :
    decimalValue (digits ++ [c]) = 10 * decimalValue digits + (c.toNat - 0x30) := by
  simp [decimalValue, List.foldl_append]

theorem toDigitsCore_writes (fuel n : Nat) (h : n < fuel) :
    writesDecimal (Nat.toDigitsCore 10 fuel n []) n := by
  induction fuel generalizing n with
  | zero => omega
  | succ fuel ih =>
    have hmod : n % 10 < 10 := Nat.mod_lt _ (by decide)
    have hd := digitChar_toNat (n % 10) hmod
    unfold Nat.toDigitsCore
    by_cases hz : n / 10 = 0
    · have hn : n < 10 := by omega
      have hn' : n % 10 = n := Nat.mod_eq_of_lt hn
      simp only [hz, if_true]
      refine ⟨by simp, ?_, ?_, ?_⟩
      · intro c hc
        rw [List.mem_singleton.1 hc]
        exact isDigit_digitChar _ hmod
      · by_cases h0 : n = 0
        · left
          subst h0
          rfl
        · right
          intro hhead
          simp only [List.head?_cons, Option.some.injEq] at hhead
          have := congrArg Char.toNat hhead
          rw [hd] at this
          have h48 : ('0' : Char).toNat = 0x30 := rfl
          omega
      · simp only [decimalValue, List.foldl_cons, List.foldl_nil, hd]
        omega
    · simp only [hz, if_false]
      rw [toDigitsCore_append]
      obtain ⟨hne, hall, hlead, hval⟩ := ih (n / 10) (by omega)
      refine ⟨by simp, ?_, ?_, ?_⟩
      · intro c hc
        rcases List.mem_append.1 hc with hc | hc
        · exact hall c hc
        · rw [List.mem_singleton.1 hc]
          exact isDigit_digitChar _ hmod
      · right
        rcases hlead with hzero | hlead
        · rw [hzero] at hval
          exact absurd hval.symm hz
        · cases hxs : Nat.toDigitsCore 10 fuel (n / 10) [] with
          | nil => exact absurd hxs hne
          | cons x xs =>
            rw [hxs] at hlead
            simpa using hlead
      · rw [decimalValue_snoc, hval, hd]
        omega

theorem numberToString_length (n : Nat) (h : n < 2 ^ 53) : (numberToString n).length ≤ 16 := by
  have hlt : n < 10 ^ 16 := Nat.lt_trans h (by decide)
  have hlen := Nat.toDigitsCore_length 10 (by decide) (n + 1) n 16 hlt (by decide)
  simpa [numberToString, Nat.repr, Nat.toDigits, List.asString] using hlen

theorem numberToString_writes (n : Nat) : writesDecimal (numberToString n) n := by
  have h := toDigitsCore_writes (n + 1) n (Nat.lt_succ_self n)
  simpa [numberToString, Nat.repr, Nat.toDigits, List.asString] using h

theorem success_numExpsInfo (response : ExpResponse) (page : FilterPage) :
    (showExperimentInfo.success response page).numExpsInfo =
      if 20 ≤ response.numExps then .html (statusMessage response.numExps ++ warningSpan)
      else .text (statusMessage response.numExps) := by
  obtain ⟨n, markup⟩ := response
  by_cases h1 : n = 1
  · subst h1
    simp [showExperimentInfo.success, statusMessage, tooMuchExps]
    decide
  · by_cases h20 : 20 ≤ n
    · have hpos : 0 < n := by omega
      simp [showExperimentInfo.success, statusMessage, tooMuchExps, h1, h20, hpos,
        Content.getText]
    · by_cases hpos : 0 < n
      · simp [showExperimentInfo.success, statusMessage, tooMuchExps, h1, h20, hpos]
      · simp [showExperimentInfo.success, statusMessage, tooMuchExps, h1, h20, hpos]

/-! ## The bounding box read by `embedSVG` -/

theorem isSpace_comma : isSpace ',' = false := by decide

theorem numericChar_not_separator (c : Char) (h : numericChar c = true) :
    isSpace c = false ∧ c ≠ ',' := by
  simp only [numericChar, Bool.or_eq_true, beq_iff_eq] at h
  rcases h with ((((h | rfl) | rfl) | rfl) | rfl) | rfl
  · simp only [isDigit, Bool.and_eq_true, decide_eq_true_eq] at h
    constructor
    · simp only [isSpace, Bool.or_eq_false_iff, Bool.and_eq_false_imp, beq_eq_false_iff_ne,
        decide_eq_true_eq, decide_eq_false_iff_not]
      omega
    · rintro rfl
      revert h
      decide
  all_goals decide

theorem separatorAt_token (c : Char) (cs : Str) (hs : isSpace c = false) (hc : c ≠ ',') :
    separatorAt (c :: cs) = none := by
  unfold separatorAt
  simp only [List.takeWhile, hs, List.length_nil, Nat.lt_irrefl, if_false]
  split
  · rename_i heq
    simp only [List.cons.injEq] at heq
    exact absurd heq.1 hc
  · rfl

theorem separatorAt_comma (rest : Str) : separatorAt (',' :: rest) = some 1 := by
  simp [separatorAt, List.takeWhile, isSpace_comma]

theorem takeWhile_run {p : Char → Bool} (s rest : Str) (hs : ∀ c ∈ s, p c = true)
    (hrest : ∀ c ∈ rest.head?, p c = false) : (s ++ rest).takeWhile p = s := by
  induction s with
  | nil =>
    cases rest with
    | nil => rfl
    | cons r rest => simp [List.takeWhile, hrest r (by simp)]
  | cons c cs ih =>
    have hc : p c = true := hs c (by simp)
    simp [List.takeWhile, hc, ih (fun d hd => hs d (by simp [hd]))]

theorem separatorAt_spaces (s rest : Str) (hne : s ≠ []) (hs : ∀ c ∈ s, isSpace c = true)
    (hrest : ∀ c ∈ rest.head?, isSpace c = false) :
    separatorAt (s ++ rest) = some s.length := by
  have hpos : 0 < s.length := List.length_pos.2 hne
  simp [separatorAt, takeWhile_run s rest hs hrest, hpos]

theorem splitLoop_nil (fuel : Nat) (cur : Str) : splitLoop fuel cur [] = [cur.reverse] := by
  cases fuel <;> rfl

theorem splitLoop_cons_none (fuel : Nat) (cur : Str) (c : Char) (cs : Str)
    (h : separatorAt (c :: cs) = none) :
    splitLoop (fuel + 1) cur (c :: cs) = splitLoop fuel (c :: cur) cs := by
  show (match separatorAt (c :: cs) with
    | some n => cur.reverse :: splitLoop fuel [] ((c :: cs).drop n)
    | none => splitLoop fuel (c :: cur) cs) = _
  rw [h]

theorem splitLoop_cons_some (fuel : Nat) (cur : Str) (c : Char) (cs : Str) (n : Nat)
    (h : separatorAt (c :: cs) = some n) :
    splitLoop (fuel + 1) cur (c :: cs) =
      cur.reverse :: splitLoop fuel [] ((c :: cs).drop n) := by
  show (match separatorAt (c :: cs) with
    | some n => cur.reverse :: splitLoop fuel [] ((c :: cs).drop n)
    | none => splitLoop fuel (c :: cur) cs) = _
  rw [h]

theorem splitLoop_token (t : Str) (ht : ∀ c ∈ t, numericChar c = true) (fuel : Nat) (cur rest : Str)
    (hfuel : t.length ≤ fuel) :
    splitLoop fuel cur (t ++ rest) = splitLoop (fuel - t.length) (t.reverse ++ cur) rest := by
  induction t generalizing fuel cur with
  | nil => simp
  | cons c cs ih =>
    obtain ⟨f, rfl⟩ : ∃ f, fuel = f + 1 := ⟨fuel - 1, by simp at hfuel; omega⟩
    have hc := numericChar_not_separator c (ht c (by simp))
    have hstep : splitLoop (f + 1) cur (c :: cs ++ rest) =
        splitLoop f (c :: cur) (cs ++ rest) :=
      splitLoop_cons_none f cur c (cs ++ rest) (separatorAt_token c (cs ++ rest) hc.1 hc.2)
    rw [hstep, ih (fun d hd => ht d (by simp [hd])) f (c :: cur) (by simp at hfuel; omega)]
    simp

theorem splitLoop_separator (s : Str) (hs : separator s = true) (fuel : Nat) (cur rest : Str)
    (hrest : ∀ c ∈ rest.head?, isSpace c = false) (hfuel : 1 ≤ fuel) :
    splitLoop fuel cur (s ++ rest) = cur.reverse :: splitLoop (fuel - 1) [] rest := by
  obtain ⟨f, rfl⟩ : ∃ f, fuel = f + 1 := ⟨fuel - 1, by omega⟩
  simp only [separator, Bool.or_eq_true, beq_iff_eq, Bool.and_eq_true, Bool.not_eq_true',
    List.isEmpty_eq_false, List.all_eq_true] at hs
  rcases hs with rfl | ⟨hne, hall⟩
  · rw [List.singleton_append, splitLoop_cons_some f cur ',' rest 1 (separatorAt_comma rest)]
    simp
  · have hat := separatorAt_spaces s rest (by simpa using hne) hall hrest
    cases s with
    | nil => simp at hne
    | cons c cs =>
      have hdrop : List.drop (c :: cs).length (c :: cs ++ rest) = rest :=
        @List.drop_left _ (c :: cs) rest
      simp only [List.cons_append] at hat hdrop
      rw [List.cons_append, splitLoop_cons_some f cur c (cs ++ rest) _ hat, hdrop,
        Nat.add_sub_cancel]

theorem numericToken_spec (t : Str) (h : numericToken t = true) :
    0 < t.length ∧ (∀ c ∈ t, numericChar c = true) ∧ (∀ c ∈ t.head?, isSpace c = false) := by
  simp only [numericToken, Bool.and_eq_true, Bool.not_eq_true', List.isEmpty_eq_false,
    List.all_eq_true] at h
  refine ⟨List.length_pos.2 (by simpa using h.1), h.2, ?_⟩
  intro c hc
  cases t with
  | nil => simp at hc
  | cons d ds =>
    simp only [List.head?_cons, Option.mem_def, Option.some.injEq] at hc
    subst hc
    exact (numericChar_not_separator d (h.2 d (by simp))).1

theorem separator_length (s : Str) (h : separator s = true) : 0 < s.length := by
  simp only [separator, Bool.or_eq_true, beq_iff_eq, Bool.and_eq_true, Bool.not_eq_true',
    List.isEmpty_eq_false, List.all_eq_true] at h
  rcases h with rfl | ⟨hne, _⟩
  · simp
  · exact List.length_pos.2 (by simpa using hne)

theorem head?_append_token (t rest : Str) (ht : numericToken t = true) :
    ∀ c ∈ (t ++ rest).head?, isSpace c = false := by
  have h := numericToken_spec t ht
  cases t with
  | nil => simp at h
  | cons d ds => simpa using h.2.2

theorem splitViewBox_four (minX minY width height s1 s2 s3 : Str)
    (h1 : numericToken minX = true) (h2 : numericToken minY = true)
    (h3 : numericToken width = true) (h4 : numericToken height = true)
    (g1 : separator s1 = true) (g2 : separator s2 = true) (g3 : separator s3 = true) :
    splitViewBox (minX ++ (s1 ++ (minY ++ (s2 ++ (width ++ (s3 ++ height)))))) =
      [minX, minY, width, height] := by
  have k1 := numericToken_spec minX h1
  have k2 := numericToken_spec minY h2
  have k3 := numericToken_spec width h3
  have k4 := numericToken_spec height h4
  have l1 := separator_length s1 g1
  have l2 := separator_length s2 g2
  have l3 := separator_length s3 g3
  have hh : ∀ c ∈ (height ++ []).head?, isSpace c = false := head?_append_token height [] h4
  unfold splitViewBox
  simp only [List.length_append]
  rw [splitLoop_token minX k1.2.1 _ _ _ (by omega),
    splitLoop_separator s1 g1 _ _ _ (head?_append_token minY _ h2) (by omega),
    splitLoop_token minY k2.2.1 _ _ _ (by omega),
    splitLoop_separator s2 g2 _ _ _ (head?_append_token width _ h3) (by omega),
    splitLoop_token width k3.2.1 _ _ _ (by omega)]
  have hlast : splitLoop
      (minX.length + (s1.length + (minY.length + (s2.length + (width.length +
        (s3.length + height.length))))) - minX.length - 1 - minY.length - 1 - width.length)
      (width.reverse ++ []) (s3 ++ height) = [width, height] := by
    have e : s3 ++ height = s3 ++ (height ++ []) := by simp
    rw [e, splitLoop_separator s3 g3 _ _ _ hh (by omega),
      splitLoop_token height k4.2.1 _ _ _ (by omega), splitLoop_nil]
    simp
  rw [hlast]
  simp

/-! ## The callbacks of `embedSVG` -/

theorem svgs_getLast_inserted (page : PlotPage) (data : List Svg) (image : Svg)
    (hlast : page.svgsAfter = []) :
    ({ page with plots := page.plots ++ [data ++ [image]] } : PlotPage).svgs.getLast? =
      some image := by
  simp [PlotPage.svgs, hlast, List.flatten_append, ← List.append_assoc]

theorem success_done (params : EmbedParams) (response : PlotResponse) (page : PlotPage)
    (lastSVG : Svg) (attr : Str)
    (hs : response.status = true)
    (hl : ({ page with plots := page.plots ++ [response.data] } : PlotPage).svgs.getLast? =
      some lastSVG)
    (hv : lastSVG.viewBox = some attr) :
    embedSVG.success params response page =
      .done (({ page with plots := page.plots ++ [response.data] } : PlotPage).resizeSvgs
        ((splitViewBox attr).get? 3) ((splitViewBox attr).get? 2)) := by
  unfold embedSVG.success
  simp only [hs, if_true, hl, hv]

theorem resize_inserted (h w : Str) (image : Svg) :
    Svg.resize (some h) (some w) image = { image with width := some w, height := some h } := rfl

/-- When no `svg` element follows the plot area, the last image of the inserted
fragment is the one `embedSVG` reads the bounding box of; for a box of four
numeric tokens with single separators it ends with the third token as width
and the fourth as height. -/
theorem embedSVG_sizes_when_last (params : EmbedParams) (page : PlotPage)
    (data : List Svg) (image : Svg) (err_msg minX minY width height s1 s2 s3 : Str)
    (hlast : page.svgsAfter = [])
    (hbox : image.viewBox =
      some (minX ++ (s1 ++ (minY ++ (s2 ++ (width ++ (s3 ++ height)))))))
    (h1 : numericToken minX = true) (h2 : numericToken minY = true)
    (h3 : numericToken width = true) (h4 : numericToken height = true)
    (g1 : separator s1 = true) (g2 : separator s2 = true) (g3 : separator s3 = true) :
    ∃ after,
      embedSVG params
        (.success { status := true, data := data ++ [image], err_msg := err_msg }) page =
        .done after ∧
      after.plots.getLast? =
        some (data.map (Svg.resize (some height) (some width)) ++
          [{ image with width := some width, height := some height }]) := by
  have hsplit := splitViewBox_four minX minY width height s1 s2 s3 h1 h2 h3 h4 g1 g2 g3
  have hl := svgs_getLast_inserted (embedSVG.beforeSend params page) data image hlast
  have hdone := success_done params
    { status := true, data := data ++ [image], err_msg := err_msg }
    (embedSVG.beforeSend params page) image _ rfl hl hbox
  rw [hsplit] at hdone
  have hrun : embedSVG params
      (.success { status := true, data := data ++ [image], err_msg := err_msg }) page =
      .done (embedSVG.complete params (PlotPage.resizeSvgs (some height) (some width)
        { embedSVG.beforeSend params page with
          plots := (embedSVG.beforeSend params page).plots ++ [data ++ [image]] })) := by
    simp only [embedSVG, hdone]
    rfl
  refine ⟨_, hrun, ?_⟩
  simp [embedSVG.complete, PlotPage.resizeSvgs, embedSVG.beforeSend, resize_inserted]

/-! ## The cells that `renderDataTable` builds -/

theorem tableHeaders_foldl (columns : List Str) (acc : Str) :
    columns.foldl (fun acc val => acc ++ "<td>".toList ++ val ++ "</td>".toList) acc =
      acc ++ (columns.map cellMarkup).flatten := by
  induction columns generalizing acc with
  | nil => simp
  | cons c cs ih =>
    rw [List.foldl_cons, ih]
    simp [cellMarkup, List.append_assoc]

theorem tableHeaders_eq (columns : List Str) :
    tableHeaders columns = (columns.map cellMarkup).flatten := by
  simpa [tableHeaders] using tableHeaders_foldl columns []

theorem dropLiteral_append (lit s : Str) : dropLiteral lit (lit ++ s) = some s := by
  induction lit with
  | nil => cases s <;> rfl
  | cons l lit ih => simpa [dropLiteral] using ih

theorem takeWhile_plain (val rest : Str) (h : val.all plainChar = true) :
    (val ++ '<' :: rest).takeWhile plainChar = val := by
  apply takeWhile_run
  · simpa using h
  · intro c hc
    simp only [List.head?_cons, Option.mem_def, Option.some.injEq] at hc
    subst hc
    decide

theorem dropWhile_plain (val rest : Str) (h : val.all plainChar = true) :
    (val ++ '<' :: rest).dropWhile plainChar = '<' :: rest := by
  have h1 := List.takeWhile_append_dropWhile plainChar (val ++ '<' :: rest)
  rw [takeWhile_plain val rest h] at h1
  exact List.append_cancel_left h1

theorem parseCellsLoop_cells (names : List Str) (hplain : ∀ name ∈ names, plainName name = true)
    (fuel : Nat) (hfuel : names.length < fuel) :
    parseCellsLoop fuel (names.map cellMarkup).flatten = some names := by
  induction names generalizing fuel with
  | nil =>
    obtain ⟨f, rfl⟩ : ∃ f, fuel = f + 1 := ⟨fuel - 1, by simp at hfuel; omega⟩
    rfl
  | cons v vs ih =>
    obtain ⟨f, rfl⟩ : ∃ f, fuel = f + 1 := ⟨fuel - 1, by simp at hfuel; omega⟩
    have hv : v.all plainChar = true := hplain v (by simp)
    have ihv := ih (fun name hn => hplain name (by simp [hn])) f (by simp at hfuel; omega)
    have hshape : ((v :: vs).map cellMarkup).flatten =
        "<td>".toList ++ (v ++ '<' :: ("/td>".toList ++ (vs.map cellMarkup).flatten)) := by
      simp [cellMarkup, List.append_assoc]
    have hclose : dropLiteral "</td>".toList ('<' :: ("/td>".toList ++ (vs.map cellMarkup).flatten)) =
        some (vs.map cellMarkup).flatten :=
      dropLiteral_append "</td>".toList _
    rw [hshape]
    show (if ("<td>".toList ++ (v ++ '<' :: ("/td>".toList ++ (vs.map cellMarkup).flatten))).isEmpty
        then some []
        else
          match dropLiteral "<td>".toList
              ("<td>".toList ++ (v ++ '<' :: ("/td>".toList ++ (vs.map cellMarkup).flatten))) with
          | none => none
          | some rest =>
            match dropLiteral "</td>".toList (rest.dropWhile plainChar) with
            | none => none
            | some rest1 => (parseCellsLoop f rest1).map (rest.takeWhile plainChar :: ·)) = _
    rw [dropLiteral_append]
    simp only [dropWhile_plain v _ hv, takeWhile_plain v _ hv, hclose, ihv]
    simp

theorem cells_length_le (names : List Str) :
    names.length ≤ ((names.map cellMarkup).flatten).length := by
  induction names with
  | nil => simp
  | cons v vs ih =>
    simp only [List.map_cons, List.flatten_cons, List.length_append, List.length_cons]
    simp only [cellMarkup, List.length_append]
    have : 0 < "<td>".toList.length := by decide
    omega

theorem parseCells_tableHeaders (names : List Str)
    (hplain : ∀ name ∈ names, plainName name = true) :
    parseCells (tableHeaders names) = some names := by
  rw [tableHeaders_eq]
  exact parseCellsLoop_cells names hplain _ (Nat.lt_succ_of_le (cells_length_le names))

theorem footer_of_header (text : Str → Str) (thead : List Str) :
    ((List.range thead.length).map fun index =>
      footerCell (match thead.get? index with
        | some written => text written
        | none => [])) =
      thead.map fun written => footerCell (text written) := by
  apply List.ext_getElem
  · simp
  · intro n h1 h2
    simp at h1
    simp [h1]

theorem makeFooter_plain (text : Str → Str) (names : List Str)
    (hplain : ∀ name ∈ names, plainName name = true) :
    makeFooter text { thead := names, tfoot := [] } (tableHeaders names) =
      some { thead := names, tfoot := names.map fun name => footerCell (text name) } := by
  simp only [makeFooter, parseCells_tableHeaders names hplain, Option.map_some']
  rw [footer_of_header]

theorem renderDataTable_plain (text : Str → Str) (data : Payload)
    (hcols : data.columns ≠ [])
    (hplain : ∀ name ∈ data.columns, plainName name = true) :
    renderDataTable text data = .rendered
      { dom := { thead := data.columns
                 tfoot := data.columns.map fun name => footerCell (text name) }
        table := { data := data.tableData
                   columns := data.columns.map fun _ => { search := [], visible := true }
                   draws := 0 }
        handlers := List.range data.columns.length } := by
  have hne : data.columns.isEmpty = false := by
    cases h : data.columns with
    | nil => exact absurd h hcols
    | cons c cs => rfl
  simp only [renderDataTable, parseCells_tableHeaders data.columns hplain,
    makeFooter_plain text data.columns hplain, initTable, hne]
  simp [addSearch]

/-! ## The search handler of `addSearch` -/

theorem get?_setSearch_eq (columns : List Column) (j : Nat) (value : Str)
    (h : j < columns.length) :
    ((setSearch columns j value).get? j).map (·.search) = some value := by
  induction columns generalizing j with
  | nil => simp at h
  | cons col rest ih =>
    cases j with
    | zero => simp [setSearch]
    | succ j => simpa [setSearch] using ih j (by simpa using h)

theorem get?_setSearch_ne (columns : List Column) (j k : Nat) (value : Str) (h : k ≠ j) :
    (setSearch columns j value).get? k = columns.get? k := by
  induction columns generalizing j k with
  | nil => simp [setSearch]
  | cons col rest ih =>
    cases j with
    | zero =>
      cases k with
      | zero => exact absurd rfl h
      | succ k => simp [setSearch]
    | succ j =>
      cases k with
      | zero => simp [setSearch]
      | succ k => simpa [setSearch] using ih j k (by omega)

theorem visibleColumn_lt (table : DataTable) (n j : Nat) (h : visibleColumn table n = some j) :
    j < table.columns.length := by
  have hmem : j ∈ visibleIndices table.columns := List.get?_mem h
  simp only [visibleIndices, List.mem_filter, List.mem_range] at hmem
  exact hmem.1

theorem searchHandler_fires (ev : SearchEvent) (table : DataTable) (j : Nat)
    (hj : visibleColumn table ev.cellIndex = some j)
    (hne : (table.columns.get? ev.that).map (·.search) ≠ some ev.value) :
    searchHandler ev table =
      { table with columns := setSearch table.columns j ev.value, draws := table.draws + 1 } := by
  simp only [searchHandler, hj]
  rw [if_pos hne]

theorem searchHandler_skips (ev : SearchEvent) (table : DataTable)
    (heq : (table.columns.get? ev.that).map (·.search) = some ev.value) :
    searchHandler ev table = table := by
  simp only [searchHandler]
  rw [if_neg (not_not.2 heq)]

/-- When the column that the handler holds is the column at the cell position
of the input, a second event with the same text changes nothing, and the first
changes the search text of that column only. -/
theorem searchHandler_settles_own_column (ev : SearchEvent) (table : DataTable)
    (hown : visibleColumn table ev.cellIndex = some ev.that) :
    searchHandler ev (searchHandler ev table) = searchHandler ev table ∧
    ∀ k, k ≠ ev.that → (searchHandler ev table).columns.get? k = table.columns.get? k := by
  by_cases heq : (table.columns.get? ev.that).map (·.search) = some ev.value
  · rw [searchHandler_skips ev table heq]
    exact ⟨searchHandler_skips ev table heq, fun _ _ => rfl⟩
  · rw [searchHandler_fires ev table ev.that hown heq]
    constructor
    · apply searchHandler_skips
      exact get?_setSearch_eq table.columns ev.that ev.value (visibleColumn_lt table _ _ hown)
    · intro k hk
      exact get?_setSearch_ne table.columns ev.that k ev.value hk

/-! ## The claims -/

/-- C1, as amended: `makeFooter` puts the button "plot <title>" into a column's
footer cell if and only if the column title holds an underscore directly
followed by a digit, anywhere in the title; otherwise the cell has no button.
So every title that ends with an underscore and digits gets a button:
`count_1` has one, `count` and `count_a` have none. -/
theorem makeFooter_plot_button_iff_holds_index (title : Str) :
    ((footerCell title).plotBtn = plotButtonMarkup title ↔ holdsIndex title) ∧
    ((footerCell title).plotBtn = [] ↔ ¬ holdsIndex title) ∧
    (endsWithIndex title = false ∨ (footerCell title).plotBtn = plotButtonMarkup title) ∧
    (footerCell "count_1".toList).plotBtn = plotButtonMarkup "count_1".toList ∧
    (footerCell "count".toList).plotBtn = [] ∧
    (footerCell "count_a".toList).plotBtn = [] := by
  have hiff := idxPatternMatch_isSome title
  have hbtn := footerCell_plotBtn title
  have hne := plotButtonMarkup_ne_nil title
  refine ⟨?_, ?_, ?_, by decide, by decide, by decide⟩
  · rw [hbtn, ← hiff]
    by_cases h : (idxPatternMatch title).isSome = true
    · simp [h]
    · have hn : ¬ ([] : Str) = plotButtonMarkup title := fun heq => hne heq.symm
      simp [h, hn]
  · rw [hbtn, ← hiff]
    by_cases h : (idxPatternMatch title).isSome = true
    · simp only [h, if_true, not_true_eq_false, iff_false]
      exact hne
    · simp [h]
  · by_cases hend : endsWithIndex title = true
    · right
      rw [hbtn, if_pos (hiff.2 (holdsIndex_of_endsWithIndex title hend))]
    · left
      simpa using hend

/-- C1, as stated, fails: the title `count_1x` does not end with an underscore
followed by digits, and `makeFooter` still gives its footer cell the button
"plot count_1x". -/
theorem makeFooter_plot_button_not_only_at_end :
    endsWithIndex "count_1x".toList = false ∧
    (footerCell "count_1x".toList).plotBtn = plotButtonMarkup "count_1x".toList := by
  decide

/-- C2: the rows of `gridify` are consecutive runs of the sub-forms in their
order, every sub-form in exactly one row and no row empty; a sub-form opens a
new row exactly when the span total of the current row plus its own span
exceeds 12, and joins the current row otherwise; the spans `[4, 4, 4, 6]` give
the rows `[4, 4, 4]` and `[6]`. -/
theorem gridify_rows_are_greedy_runs {α : Type} (cols : α → Nat) (subs : List α) (x : α) :
    (gridify cols subs).flatten = subs ∧
    (∀ r ∈ gridify cols subs, r ≠ []) ∧
    gridify cols (subs ++ [x]) =
      (if 12 < (((gridify cols subs).getLast?.getD []).map cols).sum + cols x then
        gridify cols subs ++ [[x]]
      else
        (gridify cols subs).dropLast ++ [(gridify cols subs).getLast?.getD [] ++ [x]]) ∧
    gridify id [4, 4, 4, 6] = [[4, 4, 4], [6]] :=
  ⟨gridify_flatten cols subs, gridify_ne_nil cols subs, gridify_snoc cols subs x, by decide⟩

/-- C3: for a count `numExps` below `2^53` (an integer that the response's
number holds exactly), the status line after the success handler of
`showExperimentInfo` reads "1 experiment meets your requested conditions."
when `numExps` is 1 and otherwise the decimal digits of `numExps` (at most 16,
without leading zero) followed by
" experiments meet your requested conditions."; " This might take some time."
follows if and only if `numExps` is at least 20, and the line holds the
warning markup in exactly that case.  So 0 and 19 read without the warning,
20 and 25 with it. -/
theorem showExperimentInfo_status_line (response : ExpResponse) (page : FilterPage)
    (hdouble : response.numExps < 2 ^ 53) :
    (∃ digits : Str,
      digits ≠ [] ∧ digits.length ≤ 16 ∧ (∀ c ∈ digits, isDigit c = true) ∧
      (digits = ['0'] ∨ digits.head? ≠ some '0') ∧
      decimalValue digits = response.numExps ∧
      (showExperimentInfo (some response) page).numExpsInfo.getText =
        (if response.numExps = 1 then "1 experiment meets your requested conditions.".toList
         else digits ++ " experiments meet your requested conditions.".toList) ++
        (if 20 ≤ response.numExps then " This might take some time.".toList else []) ∧
      (showExperimentInfo (some response) page).numExpsInfo =
        (if 20 ≤ response.numExps then
          .html ((if response.numExps = 1 then
              "1 experiment meets your requested conditions.".toList
            else digits ++ " experiments meet your requested conditions.".toList) ++
            "<span class=\"warning\"> This might take some time.</span>".toList)
         else
          .text (if response.numExps = 1 then
              "1 experiment meets your requested conditions.".toList
            else digits ++ " experiments meet your requested conditions.".toList))) ∧
    (showExperimentInfo (some { response with numExps := 0 }) page).numExpsInfo =
      .text "0 experiments meet your requested conditions.".toList ∧
    (showExperimentInfo (some { response with numExps := 19 }) page).numExpsInfo =
      .text "19 experiments meet your requested conditions.".toList ∧
    (showExperimentInfo (some { response with numExps := 20 }) page).numExpsInfo.getText =
      "20 experiments meet your requested conditions. This might take some time.".toList ∧
    (showExperimentInfo (some { response with numExps := 25 }) page).numExpsInfo.getText =
      "25 experiments meet your requested conditions. This might take some time.".toList := by
  have h := success_numExpsInfo response page
  have hw := numberToString_writes response.numExps
  refine ⟨⟨numberToString response.numExps, hw.1,
    numberToString_length response.numExps hdouble, hw.2.1, hw.2.2.1, hw.2.2.2, ?_, ?_⟩,
    ?_, ?_, ?_, ?_⟩
  · show (showExperimentInfo.success response page).numExpsInfo.getText = _
    rw [h]
    by_cases h20 : 20 ≤ response.numExps
    · simp only [h20, if_true, Content.getText]
      rw [stripTags_append_text _ _ (statusMessage_ne_lt _), stripTags_warningSpan]
      rfl
    · simp only [h20, if_false, Content.getText, List.append_nil]
      rfl
  · exact h
  · show (showExperimentInfo.success _ page).numExpsInfo = _
    rw [success_numExpsInfo]
    show (if (20 : Nat) ≤ (0 : Nat) then Content.html (statusMessage 0 ++ warningSpan)
      else Content.text (statusMessage 0)) = _
    decide
  · show (showExperimentInfo.success _ page).numExpsInfo = _
    rw [success_numExpsInfo]
    show (if (20 : Nat) ≤ (19 : Nat) then Content.html (statusMessage 19 ++ warningSpan)
      else Content.text (statusMessage 19)) = _
    decide
  · show (showExperimentInfo.success _ page).numExpsInfo.getText = _
    rw [success_numExpsInfo]
    show (if (20 : Nat) ≤ (20 : Nat) then Content.html (statusMessage 20 ++ warningSpan)
      else Content.text (statusMessage 20)).getText = _
    decide
  · show (showExperimentInfo.success _ page).numExpsInfo.getText = _
    rw [success_numExpsInfo]
    show (if (20 : Nat) ≤ (25 : Nat) then Content.html (statusMessage 25 ++ warningSpan)
      else Content.text (statusMessage 25)).getText = _
    decide

/-- Witness for C3: 25 experiments on a filter page that shows nothing yet. -/
theorem showExperimentInfo_status_line_witness :
    (25 : Nat) < 2 ^ 53 ∧
    (showExperimentInfo (some { numExps := 25, tableExps := [] }) blankFilterPage).numExpsInfo.getText =
      "25 experiments meet your requested conditions. This might take some time.".toList :=
  ⟨by decide,
   (showExperimentInfo_status_line { numExps := 25, tableExps := [] } blankFilterPage
     (by decide)).2.2.2.2⟩

/-- C4: after the success handler of `showExperimentInfo`, whatever was
visible before, the submit control and the preview listing are both visible
if `numExps > 0` and both hidden if `numExps = 0`; when `numExps > 0` the
listing holds the markup `tableExps` of the response. -/
theorem showExperimentInfo_visibility (response : ExpResponse) (page : FilterPage) :
    (showExperimentInfo (some response) page).submitButtonShown = decide (0 < response.numExps) ∧
    (showExperimentInfo (some response) page).availableExpsShown =
      decide (0 < response.numExps) ∧
    (showExperimentInfo (some response) page).availableExps =
      (if 0 < response.numExps then .html response.tableExps else page.availableExps) := by
  by_cases hpos : 0 < response.numExps
  · simp [showExperimentInfo, showExperimentInfo.success, hpos]
  · simp only [showExperimentInfo, showExperimentInfo.success, hpos, if_false, decide_False]
    split <;> simp

/-- C5, the code at a failing input: the page has an `svg` element after the
plot area (bounding box `0 0 24 24`); a response with status true whose one
image declares the valid bounding box `0 0 400 300` leaves that image with
width 24 and height 24, not 400 and 300. -/
theorem embedSVG_sizes_from_last_svg_of_document :
    numericToken "0".toList = true ∧ numericToken "400".toList = true ∧
    numericToken "300".toList = true ∧ separator " ".toList = true ∧
    boxImage.viewBox =
      some ("0".toList ++ (" ".toList ++ ("0".toList ++ (" ".toList ++
        ("400".toList ++ (" ".toList ++ "300".toList)))))) ∧
    (embedSVG comparePlot (.success { status := true, data := [boxImage], err_msg := [] })
      { blankPage with
        svgsAfter := [{ viewBox := some "0 0 24 24".toList, width := none,
                        height := none }] }).page.plots =
      [[{ viewBox := some "0 0 400 300".toList, width := some "24".toList,
          height := some "24".toList }]] := by
  decide

/-- C6: when a plot request fails, `embedSVG` ends with exactly the failure
message in the warning area under `containerId` and with the plot area as it
was: the message is `err_msg` for a response of status false, and the response
body for a transport failure. -/
theorem embedSVG_failure_message (params : EmbedParams) (page : PlotPage) (data : List Svg)
    (err_msg responseText : Str) :
    (∃ after,
      embedSVG params (.success { status := false, data := data, err_msg := err_msg }) page =
        .done after ∧
      after.warning (params.containerId ++ "--warning".toList) = .text err_msg ∧
      after.plots = page.plots ∧ after.svgsBefore = page.svgsBefore ∧
      after.svgsAfter = page.svgsAfter) ∧
    (∃ after,
      embedSVG params (.error responseText) page = .done after ∧
      after.warning (params.containerId ++ "--warning".toList) = .text responseText ∧
      after.plots = page.plots ∧ after.svgsBefore = page.svgsBefore ∧
      after.svgsAfter = page.svgsAfter) := by
  constructor
  · refine ⟨_, rfl, ?_, rfl, rfl, rfl⟩
    simp [embedSVG.complete, embedSVG.beforeSend]
  · refine ⟨_, rfl, ?_, rfl, rfl, rfl⟩
    simp [embedSVG.complete, embedSVG.error, embedSVG.beforeSend]

/-- C7, the code at a failing input: the plot area holds an image of width 100
and height 50 from an earlier request; a response whose image declares
`0 0 400 300` leaves the earlier image with width 400 and height 300 too. -/
theorem embedSVG_resizes_earlier_images :
    (embedSVG comparePlot (.success { status := true, data := [boxImage], err_msg := [] })
      { blankPage with
        plots := [[{ viewBox := some "0 0 100 50".toList, width := some "100".toList,
                     height := some "50".toList }]] }).page.plots =
      [[{ viewBox := some "0 0 100 50".toList, width := some "400".toList,
          height := some "300".toList }],
       [{ viewBox := some "0 0 400 300".toList, width := some "400".toList,
          height := some "300".toList }]] := by
  decide

/-- C8, as amended: for a table payload with N columns, N at least 1, and M
rows whose column names hold no `<`, `renderDataTable` builds a header of
exactly N cells and a footer of exactly N cells, in the order of
`payload.columns`, and starts the table widget with exactly the M rows of
`payload.tableData`. -/
theorem renderDataTable_cells_and_rows (text : Str → Str) (data : Payload)
    (hcols : 1 ≤ data.columns.length)
    (hplain : ∀ name ∈ data.columns, plainName name = true) :
    ∃ rendered,
      renderDataTable text data = .rendered rendered ∧
      rendered.dom.thead = data.columns ∧
      rendered.dom.tfoot = data.columns.map (fun name => footerCell (text name)) ∧
      rendered.dom.thead.length = data.columns.length ∧
      rendered.dom.tfoot.length = data.columns.length ∧
      rendered.table.data = data.tableData ∧
      rendered.table.data.length = data.tableData.length :=
  ⟨_, renderDataTable_plain text data (by
      intro h
      rw [h] at hcols
      exact absurd hcols (by decide)) hplain, rfl, rfl, rfl, by simp, rfl, rfl⟩

/-- Witness for C8: two columns and one row. -/
theorem renderDataTable_cells_and_rows_witness :
    1 ≤ ["gene".toList, "count_1".toList].length ∧
    (∀ name ∈ ["gene".toList, "count_1".toList], plainName name = true) ∧
    ∃ rendered,
      renderDataTable id { columns := ["gene".toList, "count_1".toList],
                           tableData := [["abc".toList, "7".toList]] } = .rendered rendered ∧
      rendered.dom.thead = ["gene".toList, "count_1".toList] ∧
      rendered.dom.tfoot =
        ["gene".toList, "count_1".toList].map (fun name => footerCell (id name)) ∧
      rendered.dom.thead.length = 2 ∧
      rendered.dom.tfoot.length = 2 ∧
      rendered.table.data = [["abc".toList, "7".toList]] ∧
      rendered.table.data.length = 1 :=
  ⟨by decide, by decide,
   renderDataTable_cells_and_rows id
     { columns := ["gene".toList, "count_1".toList],
       tableData := [["abc".toList, "7".toList]] }
     (by decide) (by decide)⟩

/-- C8, as stated, fails twice: a payload with the one column name
`a</td><td>b` is rendered with two header cells and two footer cells; and for
a payload without columns `initTable` throws, so no table widget is started. -/
theorem renderDataTable_fails_on_markup_and_no_columns :
    renderDataTable id { columns := ["a</td><td>b".toList], tableData := [] } =
      .rendered
        { dom := { thead := ["a".toList, "b".toList]
                   tfoot := [footerCell "a".toList, footerCell "b".toList] }
          table := { data := []
                     columns := [{ search := [], visible := true },
                                 { search := [], visible := true }]
                     draws := 0 }
          handlers := [0, 1] } ∧
    renderDataTable id { columns := [], tableData := [] } =
      .threw { thead := [], tfoot := [] } := by
  decide

/-- C9, the code at a failing input: the column of index 0 has been moved
behind its neighbour (`colReorder: true`), so the input whose handler holds
index 0 stands in footer cell 1.  The first event with the text `x` sets the
filter of the input's column and redraws; the second event with the same text
finds the guard still open, because it reads the filter of the column now at
index 0, and redraws the table again. -/
theorem searchHandler_redraws_after_reorder :
    searchHandler { that := 0, cellIndex := 1, value := "x".toList } twoColumns =
      { data := []
        columns := [{ search := [], visible := true }, { search := "x".toList, visible := true }]
        draws := 1 } ∧
    searchHandler { that := 0, cellIndex := 1, value := "x".toList }
      (searchHandler { that := 0, cellIndex := 1, value := "x".toList } twoColumns) =
      { data := []
        columns := [{ search := [], visible := true }, { search := "x".toList, visible := true }]
        draws := 2 } := by
  decide

/-- C10: when no sub-form spans more than 12 columns, every row that `gridify`
wraps is non-empty and its spans sum to at most 12. -/
theorem gridify_rows_fit_twelve {α : Type} (cols : α → Nat) (subs : List α)
    (hspan : ∀ x ∈ subs, cols x ≤ 12) :
    ∀ r ∈ gridify cols subs, r ≠ [] ∧ (r.map cols).sum ≤ 12 :=
  fun r hr => ⟨gridify_ne_nil cols subs r hr, gridify_sum_le cols subs hspan r hr⟩

/-- Witness for C10: the spans `[4, 4, 4, 6]`. -/
theorem gridify_rows_fit_twelve_witness :
    (∀ x ∈ [4, 4, 4, 6], id x ≤ 12) ∧
    ∀ r ∈ gridify id [4, 4, 4, 6], r ≠ [] ∧ (r.map id).sum ≤ 12 :=
  ⟨by decide, gridify_rows_fit_twelve id [4, 4, 4, 6] (by decide)⟩

end Disbi
